import Mathlib

/-!
Verification of the Mod-Manager updater subsystem (Sanddino00/Mod-Manager).

Python strings are modelled as `List Char`, file contents as `List Nat`
(byte lists), Python `None` as `Option.none`.  External collaborators
(`urllib`, `requests`, `zipfile`, `packaging.version`, the OS process table
and file locks) are modelled as explicit value-level environments; every
Python `except` branch becomes a value branch, so each function is total.
-/

/-- Character list of a string literal (a Python `str` value). -/
def str (s : String) : List Char := s.data

/-- Characters removed by Python's `str.strip()` (ASCII whitespace). -/
def pyIsSpace (c : Char) : Bool :=
  c == ' ' || c == '\t' || c == '\n' || c == '\r' || c == '\x0b' || c == '\x0c'

/-- Python `s.strip()`. -/
def pyStrip (s : List Char) : List Char :=
  ((s.dropWhile pyIsSpace).reverse.dropWhile pyIsSpace).reverse

/-- Python `s.split(sep)` for a one-character separator: `"".split "."` is
`[""]`, separators produce empty fields. -/
def pySplit (sep : Char) : List Char → List (List Char)
  | [] => [[]]
  | c :: cs =>
    if c == sep then [] :: pySplit sep cs
    else
      match pySplit sep cs with
      | [] => [[c]]
      | p :: ps => (c :: p) :: ps

/-- Python `s.isdigit()` restricted to ASCII digit strings (nonempty, all
digits); the exotic Unicode digits Python also accepts are out of model. -/
def pyIsDigit (s : List Char) : Bool :=
  !s.isEmpty && s.all fun c => '0' ≤ c && c ≤ '9'

/-- Python `int(s)` on an ASCII digit string. -/
def charsToNat (s : List Char) : Nat :=
  s.foldl (fun n c => n * 10 + (c.toNat - '0'.toNat)) 0

/-- Python list comparison (`<`, `>`) on integer lists, as an `Ordering`:
a strict prefix is smaller, otherwise the first differing component decides. -/
def pyListCmp : List Nat → List Nat → Ordering
  | [], [] => .eq
  | [], _ :: _ => .lt
  | _ :: _, [] => .gt
  | x :: xs, y :: ys => (compare x y).then (pyListCmp xs ys)

/-- `semver_normalize` from src/modmanager.py lines 100-107.  `if not tag:
return None` maps both `None` and the empty string to `None`; otherwise the
tag is whitespace-stripped and one leading `v`/`V` is removed. -/
def semver_normalize : Option (List Char) → Option (List Char)
  | none => none
  | some s =>
    if s.isEmpty then none
    else
      match pyStrip s with
      | c :: rest => if c == 'v' || c == 'V' then some rest else some (c :: rest)
      | [] => some []

/-- Model of `packaging.version.parse`, restricted to purely numeric release
versions: surrounding whitespace and a single leading `v`/`V` are accepted
(as by PEP 440), the remainder must be nonempty dot-separated ASCII digit
groups; every other input is treated as a parse failure (`InvalidVersion`).
Pre-release/post/dev/epoch/local forms are outside the model. -/
def pkg_version_parse (s : List Char) : Option (List Nat) :=
  let t := pyStrip s
  let t :=
    match t with
    | c :: rest => if c == 'v' || c == 'V' then rest else c :: rest
    | [] => []
  let parts := pySplit '.' t
  if parts.all pyIsDigit then some (parts.map charsToNat) else none

/-- packaging's comparison key for a release drops trailing zero components
(`dropwhile (== 0)` over the reversed tuple). -/
def dropTrailZeros : List Nat → List Nat
  | [] => []
  | x :: xs =>
    match dropTrailZeros xs with
    | [] => if x == 0 then [] else [x]
    | ys => x :: ys

/-- `packaging.version.Version` strict order on parsed numeric releases. -/
def pkgLt (a b : List Nat) : Bool :=
  pyListCmp (dropTrailZeros a) (dropTrailZeros b) == Ordering.lt

/-- The fallback's `[int(x) for x in s.split(".") if x.isdigit()]`: digit-only
dot components, non-digit components silently dropped. -/
def digit_parts (s : List Char) : List Nat :=
  ((pySplit '.' s).filter pyIsDigit).map charsToNat

/-- `is_version_newer` from src/modmanager.py lines 109-121.  Tier 1 compares
`packaging` versions; if either side fails to parse, tier 2 compares the
digit-only components as Python lists (this never raises for string inputs);
the final `latest != installed and latest is not None` fallback is reached
only when an argument is Python `None` (its `.split` raises). -/
def is_version_newer (installed latest : Option (List Char)) : Bool :=
  match installed, latest with
  | some i, some l =>
    match pkg_version_parse l, pkg_version_parse i with
    | some lv, some iv => pkgLt iv lv
    | _, _ => pyListCmp (digit_parts l) (digit_parts i) == Ordering.gt
  | none, some _ => true
  | _, none => false

/-- Right-zero-padding of a component list to length `n` (the claim's
"shorter sequence zero-padded on the right"). -/
def padTo (n : Nat) (l : List Nat) : List Nat :=
  l ++ List.replicate (n - l.length) 0

/-- The claim's comparison rule, stated from the spec's words: pad both
component lists with zeros on the right to a common length, then compare
lexicographically; the candidate is newer iff the installed side is
strictly smaller. -/
def specIsNewer (installed candidate : List Nat) : Bool :=
  let m := max installed.length candidate.length
  pyListCmp (padTo m installed) (padTo m candidate) == Ordering.lt

/-- The claim's description of `normalize`: strip whitespace, then remove at
most one leading `v`/`V`. -/
def stripOneV : List Char → List Char
  | c :: rest => if c == 'v' || c == 'V' then rest else c :: rest
  | [] => []

/-- Componentwise comparison treating a missing component as `0` — the
common normal form linking packaging's trailing-zero-dropping order with
the claim's right-zero-padded lexicographic order. -/
def cmpPad : List Nat → List Nat → Ordering
  | [], [] => .eq
  | [], y :: ys => (compare 0 y).then (cmpPad [] ys)
  | x :: xs, [] => (compare x 0).then (cmpPad xs [])
  | x :: xs, y :: ys => (compare x y).then (cmpPad xs ys)

/-- The `"DISABLED_"` marker used by `ModManager.toggle_selected_mod`. -/
def DISABLED_MARK : List Char := str "DISABLED_"

/-- Python `s.replace(pat, rep, 1)`: replace the first occurrence of `pat`,
scanning left to right; `s` is returned unchanged when `pat` never occurs. -/
def pyReplaceFirst (pat rep : List Char) : List Char → List Char
  | [] => if pat.isEmpty then rep else []
  | c :: cs =>
    if pat.isPrefixOf (c :: cs) then rep ++ (c :: cs).drop pat.length
    else c :: pyReplaceFirst pat rep cs

/-- The folder-name rewrite of `ModManager.toggle_selected_mod`
(src/modmanager.py lines 544-560): a name starting with `DISABLED_` has the
first occurrence of the marker removed, any other name gets the marker
prepended. -/
def toggle_mod_name (folder_name : List Char) : List Char :=
  if DISABLED_MARK.isPrefixOf folder_name then pyReplaceFirst DISABLED_MARK [] folder_name
  else DISABLED_MARK ++ folder_name

/-- Release JSON fields used by the check workflow. -/
structure Release where
  tag_name : Option (List Char)
  name : Option (List Char)
  deriving DecidableEq

/-- The persisted settings fields the check workflow can touch
(src/modmanager.py lines 57-82): version, last seen release tag, install
path, auto-check flag. -/
structure Settings where
  version : Option (List Char)
  last_release_tag : Option (List Char)
  install_path_info : Option (List Char)
  auto_check_updates : Bool
  deriving DecidableEq

/-- Terminal status reported by `_check_updates_and_update_ui` through
`set_update_status`. -/
inductive CheckStatus where
  | unableToCheck
  | updateAvailable (tag : Option (List Char))
  | upToDate (tag : Option (List Char))
  deriving DecidableEq

/-- Python truthiness of an optional string: `None` and `""` are falsy. -/
def pyTruthyStr : Option (List Char) → Bool
  | none => false
  | some s => !s.isEmpty

/-- Python `a or b` on optional strings: `b` whenever `a` is falsy. -/
def pyOrStr (a b : Option (List Char)) : Option (List Char) :=
  if pyTruthyStr a then a else b

/-- `SCRIPT_VERSION` from src/modmanager.py line 28. -/
def SCRIPT_VERSION : List Char := str "1.0.9"

/-- Ways `fetch_latest_release_info` (src/modmanager.py lines 123-134) can
end: every HTTP error, transport error/timeout and JSON decode error is
caught and surfaces as `None`; only a good response yields a release. -/
inductive FetchOutcome where
  | httpError
  | transportError
  | malformedJson
  | ok (r : Release)

/-- `fetch_latest_release_info` as a function of its network outcome. -/
def fetch_latest_release_info : FetchOutcome → Option Release
  | .httpError => none
  | .transportError => none
  | .malformedJson => none
  | .ok r => some r

/-- `_check_updates_and_update_ui` from src/modmanager.py lines 619-636,
applied to the fetched release (already a value) and the settings store.
On a failed fetch it reports "Unable to check" and leaves the settings
untouched; otherwise both branches write `last_release_tag`. -/
def check_updates_and_update_ui (latest : Option Release) (s : Settings) :
    Settings × CheckStatus :=
  match latest with
  | none => (s, .unableToCheck)
  | some rel =>
    let tag := pyOrStr rel.tag_name rel.name
    let tag_norm := semver_normalize tag
    let installed := semver_normalize (some (s.version.getD SCRIPT_VERSION))
    if pyTruthyStr tag_norm && pyTruthyStr installed
        && is_version_newer installed tag_norm then
      ({ s with last_release_tag := tag }, .updateAvailable tag)
    else
      ({ s with last_release_tag := tag }, .upToDate tag)

/-- Files relevant to one replacement job: the downloaded source, the live
destination, and the `dest + ".new"` staging sibling (byte contents;
`none` = absent). -/
structure RepState where
  src : Option (List Nat)
  dest : Option (List Nat)
  newFile : Option (List Nat)
  deriving DecidableEq

/-- Spec vocabulary for the outcome of a replacement. -/
inductive ReplaceResult where
  | committed
  | deferred
  | failed
  deriving DecidableEq

/-- `atomic_replace` from src/old_updater/1.1/update.py lines 130-143:
remove `dst` if present, then move `src` onto it; on failure fall back to
copy-then-delete.  `destLocked` models `dst` being held open by another
process, which makes the remove, the move-over and the fallback copy all
raise, so the function returns `False` and changes nothing. -/
def atomic_replace (destLocked : Bool) (s : RepState) : Bool × RepState :=
  if destLocked then (false, s)
  else
    match s.src with
    | some c => (true, { s with src := none, dest := some c })
    | none => (false, s)

/-- The deferred branch of `task_update_exe` (src/old_updater/1.1/update.py
lines 454-458): write the source bytes to `dest + ".new"`
(`shutil.copy2(upd_tmp, tmp_up)`), then `_schedule_replace_and_exit` spawns
the detached watcher script and exits the current process. -/
def schedule_deferred (s : RepState) : ReplaceResult × RepState :=
  match s.src with
  | some c => (.deferred, { s with newFile := some c })
  | none => (.failed, s)

/-- The spec's `ReplacementEngine.replace`, assembled from the two source
paths: the direct atomic move when the destination is not locked
(`atomic_replace`), the staged watcher hand-off when it is
(`_schedule_replace_and_exit`, src/old_updater/1.1/update.py 494-550). -/
def ReplacementEngine_replace (destLocked : Bool) (s : RepState) :
    ReplaceResult × RepState :=
  if destLocked then schedule_deferred s
  else
    match atomic_replace destLocked s with
    | (true, s') => (.committed, s')
    | (false, s') => (.failed, s')

/-- The state reached once the watcher script's delete loop exits
(generated script, src/old_updater/1.1/update.py lines 509-521): `dest` has
been deleted and `move /Y "dest.new" "dest"` moves the staging file onto it
(when the staging file is missing the move fails silently and `dest` stays
deleted). -/
def watcher_finish (s : RepState) : RepState :=
  match s.newFile with
  | some c => { s with dest := some c, newFile := none }
  | none => { s with dest := none }

/-- The watcher script's retry loop: at attempt `i` the `del "dest"` fails
iff `lockedAt i`; on the first unlocked attempt the loop falls through to
the move.  `fuel` bounds the number of modelled attempts. -/
def watcher_loop (lockedAt : Nat → Bool) : Nat → Nat → RepState → Option RepState
  | _, 0, _ => none
  | i, fuel + 1, s =>
    if lockedAt i then watcher_loop lockedAt (i + 1) fuel s
    else some (watcher_finish s)

/-- One archive member of `resources.zip`: a directory, or a file carrying
its bytes (`none` marks a member whose extraction raises, e.g. a CRC
failure in a corrupt archive). -/
inductive ZipEntry where
  | dir (parts : List (List Char))
  | file (parts : List (List Char)) (content : Option (List Nat))

/-- Destination tree as a map from paths (component lists) to file bytes. -/
def ZFS : Type := List (List Char) → Option (List Nat)

/-- Point update of a destination tree. -/
def writeFS (fs : ZFS) (p : List (List Char)) (v : Option (List Nat)) : ZFS :=
  fun q => if q = p then v else fs q

/-- Python `c.lower()` for our character lists. -/
def pyLower (s : List Char) : List Char := s.map Char.toLower

/-- The wrapper-stripping step of `InstallerUpdater.unzip_and_merge`
(src/update.py lines 92-95): drop a leading `resources` component. -/
def stripResources (parts : List (List Char)) : List (List Char) :=
  match parts with
  | [] => []
  | p :: rest => if pyLower p = str "resources" then rest else p :: rest

/-- `InstallerUpdater.unzip_and_merge` from src/update.py lines 89-102:
members are extracted one by one, each target opened with mode `wb`
(truncating any existing file) directly inside `dest` — there is no staging
directory.  A member whose extraction raises leaves its target truncated
and aborts the loop (`false`), keeping everything already written. -/
def unzip_and_merge (dest : List (List Char)) : List ZipEntry → ZFS → Bool × ZFS
  | [], fs => (true, fs)
  | .dir _ :: rest, fs => unzip_and_merge dest rest fs
  | .file parts none :: _, fs =>
    (false, writeFS fs (dest ++ stripResources parts) (some []))
  | .file parts (some c) :: rest, fs =>
    unzip_and_merge dest rest (writeFS fs (dest ++ stripResources parts) (some c))

/-- Destination paths of the file members of an entry list. -/
def zip_targets (dest : List (List Char)) : List ZipEntry → List (List (List Char))
  | [] => []
  | .dir _ :: rest => zip_targets dest rest
  | .file parts _ :: rest => (dest ++ stripResources parts) :: zip_targets dest rest

/-- Filesystem facts `InstallerUpdater.run` branches on. -/
structure InstallerRunEnv where
  update_new_exists : Bool
  modmanager_exists : Bool
  deriving DecidableEq

/-- The download destinations issued by `InstallerUpdater.run`
(src/update.py lines 144-168), in order, as file names inside the install
directory: `update_new.exe` (unless already present), then the live
`modmanager.exe` itself, then the `resources.zip` staging archive. -/
def run_download_dests (env : InstallerRunEnv) : List (List Char) :=
  (if env.update_new_exists then [] else [str "update_new.exe"])
    ++ [str "modmanager.exe"] ++ [str "resources.zip"]

/-- The download destinations issued by `Updater.start_update`
(src/old_updater/1.2/update.py lines 109-148), in order. -/
def start_update_download_dests (env : InstallerRunEnv) : List (List Char) :=
  [str "resources.zip"] ++ [str "modmanager.exe"]
    ++ (if env.update_new_exists then [] else [str "update_new.exe"])

/-- The live executable file name (`EXPECTED_MODMANAGER_EXE_NAME`). -/
def MODMANAGER_EXE : List Char := str "modmanager.exe"

/-- Environment of one `download_url_to_path` call (src/modmanager.py lines
136-164): whether `urlopen` succeeds, the raw `Content-Length` header, the
chunk sequence the response delivers (`none` = the read or write of that
chunk raises), and whether `makedirs`/`open(dest, "wb")` succeed. -/
structure DlEnv where
  urlopen_ok : Bool
  content_length : Option (List Char)
  chunks : List (Option (List Nat))
  fs_ok : Bool

/-- `total = int(total) if total and total.isdigit() else None`. -/
def parseTotal : Option (List Char) → Option Nat
  | none => none
  | some h => if pyIsDigit h then some (charsToNat h) else none

/-- The download loop of `download_url_to_path`: write each chunk, invoke
the progress callback inside `try/except: pass` (`cbFail i` tells whether
the call at chunk `i` raises — it is swallowed either way), stop cleanly on
the empty chunk, abort with `False` on an I/O error.  Returns the flag and
the bytes written to the destination file. -/
def dl_loop (cbFail : Nat → Bool) : List (Option (List Nat)) → Nat → List Nat →
    Bool × List Nat
  | [], _, acc => (true, acc)
  | none :: _, _, acc => (false, acc)
  | some c :: rest, i, acc =>
    have _cb_raised_and_swallowed := cbFail i
    dl_loop cbFail rest (i + 1) (acc ++ c)

/-- `download_url_to_path` from src/modmanager.py lines 136-164: the outer
`try/except` turns every failure into a `False` return; on success the
destination file holds exactly the bytes streamed.  The second component is
the destination file's content (`none` = never created). -/
def download_url_to_path (env : DlEnv) (cbFail : Nat → Bool) :
    Bool × Option (List Nat) :=
  if env.urlopen_ok && env.fs_ok then
    let r := dl_loop cbFail env.chunks 0 []
    (r.1, some r.2)
  else (false, none)

/-- Total bytes carried by the delivered chunks. -/
def chunksBytes (chunks : List (Option (List Nat))) : List Nat :=
  chunks.foldr (fun o acc => o.getD [] ++ acc) []

/-! ### Helper lemmas -/

theorem pyReplaceFirst_of_isPrefixOf (pat s : List Char) (hne : pat ≠ [])
    (hpre : pat.isPrefixOf s = true) :
    pyReplaceFirst pat [] s = s.drop pat.length := by
  cases s with
  | nil =>
    cases pat with
    | nil => exact absurd rfl hne
    | cons p ps => simp [List.isPrefixOf] at hpre
  | cons c cs => simp [pyReplaceFirst, hpre]

/-! ### Claim C10 -/

/-- Claim C10: the enable/disable rename is a round-trip on mod folder
names: toggling a name without the `DISABLED_` marker prepends it and a
second toggle restores exactly the original name; toggling a name with the
marker removes exactly the first (leading) occurrence of the marker. -/
theorem c10_toggle_roundtrip (n : List Char) :
    (DISABLED_MARK.isPrefixOf n = false →
      toggle_mod_name n = DISABLED_MARK ++ n
        ∧ toggle_mod_name (toggle_mod_name n) = n)
    ∧ (DISABLED_MARK.isPrefixOf n = true →
      ∃ rest, n = DISABLED_MARK ++ rest ∧ toggle_mod_name n = rest) := by
  have hmark : DISABLED_MARK ≠ [] := by decide
  constructor
  · intro h
    have h1 : toggle_mod_name n = DISABLED_MARK ++ n := by
      simp [toggle_mod_name, h]
    refine ⟨h1, ?_⟩
    have h2 : DISABLED_MARK.isPrefixOf (DISABLED_MARK ++ n) = true :=
      List.isPrefixOf_iff_prefix.mpr (List.prefix_append DISABLED_MARK n)
    rw [h1, toggle_mod_name, if_pos h2,
      pyReplaceFirst_of_isPrefixOf _ _ hmark h2, List.drop_left]
  · intro h
    obtain ⟨rest, rfl⟩ := List.isPrefixOf_iff_prefix.mp h
    refine ⟨rest, rfl, ?_⟩
    rw [toggle_mod_name, if_pos h,
      pyReplaceFirst_of_isPrefixOf _ _ hmark h, List.drop_left]

/-- Witness for C10 at the concrete names `CoolMod` and `DISABLED_CoolMod`. -/
theorem c10_toggle_roundtrip_witness :
    (toggle_mod_name (str "CoolMod") = DISABLED_MARK ++ str "CoolMod"
      ∧ toggle_mod_name (toggle_mod_name (str "CoolMod")) = str "CoolMod")
    ∧ ∃ rest, str "DISABLED_CoolMod" = DISABLED_MARK ++ rest
        ∧ toggle_mod_name (str "DISABLED_CoolMod") = rest :=
  ⟨(c10_toggle_roundtrip (str "CoolMod")).1 (by decide),
   (c10_toggle_roundtrip (str "DISABLED_CoolMod")).2 (by decide)⟩

/-! ### Claim C5 -/

/-- Claim C5: when the release-metadata fetch fails (HTTP error, transport
error/timeout, malformed JSON — all of which `fetch_latest_release_info`
maps to `None`), the check workflow reports the failed "Unable to check"
status and the persisted settings (tag, version, install path, flags) are
exactly as before the call. -/
theorem c5_check_failure_keeps_settings (o : FetchOutcome) (s : Settings)
    (h : fetch_latest_release_info o = none) :
    check_updates_and_update_ui (fetch_latest_release_info o) s =
      (s, CheckStatus.unableToCheck) := by
  rw [h]
  rfl

/-- Witness for C5: a timed-out fetch with fully populated settings. -/
theorem c5_check_failure_keeps_settings_witness :
    fetch_latest_release_info FetchOutcome.transportError = none
    ∧ check_updates_and_update_ui
        (fetch_latest_release_info FetchOutcome.transportError)
        ⟨some (str "1.0.9"), some (str "v1.0.8"), some (str "C:/mm"), true⟩ =
      (⟨some (str "1.0.9"), some (str "v1.0.8"), some (str "C:/mm"), true⟩,
        CheckStatus.unableToCheck) :=
  ⟨rfl, c5_check_failure_keeps_settings _ _ rfl⟩

/-! ### Claim C8 -/

/-- Counterexample to C8: the empty tag is not returned unchanged —
`if not tag` also catches `""`, so `semver_normalize` maps the empty
string to `None` rather than to itself. -/
theorem c8_normalize_empty_counterexample :
    semver_normalize (some []) = none
    ∧ (none : Option (List Char)) ≠ some [] := by
  decide

/-- Claim C8 as amended: `normalize` returns `None` both for an absent and
for an empty tag; for a nonempty tag it strips surrounding whitespace and
then exactly one leading `v`/`V`; the claim's concrete examples hold. -/
theorem c8_normalize_amended :
    semver_normalize none = none
    ∧ semver_normalize (some []) = none
    ∧ semver_normalize (some (str "v1.2.3")) = some (str "1.2.3")
    ∧ semver_normalize (some (str "1.2.3")) = some (str "1.2.3")
    ∧ ∀ s : List Char, s ≠ [] →
        semver_normalize (some s) = some (stripOneV (pyStrip s)) := by
  refine ⟨rfl, rfl, by decide, by decide, ?_⟩
  intro s hs
  have hne : s.isEmpty = false := by
    cases s with
    | nil => exact absurd rfl hs
    | cons c cs => rfl
  cases h : pyStrip s with
  | nil => simp [semver_normalize, hne, h, stripOneV]
  | cons c rest =>
    by_cases hv : (c == 'v' || c == 'V') = true
    · simp [semver_normalize, hne, h, stripOneV, hv]
    · simp [semver_normalize, hne, h, stripOneV, hv]

/-- Witness for C8's amended general clause at `" v1.2.3 "`. -/
theorem c8_normalize_amended_witness :
    str " v1.2.3 " ≠ []
    ∧ semver_normalize (some (str " v1.2.3 ")) =
        some (stripOneV (pyStrip (str " v1.2.3 "))) :=
  ⟨by decide, c8_normalize_amended.2.2.2.2 (str " v1.2.3 ") (by decide)⟩

/-! ### Claim C4 -/

/-- Counterexample to C4: with `installed = "abc"` and `candidate = "xyz"`
numeric parsing fails on both sides and the candidate is nonempty and
differs from the installed string, so the claim predicts `true`; the code's
digit-filtering fallback compares `[] > []` and returns `false` instead. -/
theorem c4_fallback_counterexample :
    pkg_version_parse (str "abc") = none
    ∧ pkg_version_parse (str "xyz") = none
    ∧ str "xyz" ≠ []
    ∧ str "xyz" ≠ str "abc"
    ∧ is_version_newer (some (str "abc")) (some (str "xyz")) = false := by
  decide

/-- Claim C4 as amended: when `packaging` parsing fails for either side of
a pair of version strings, `is_version_newer` compares the digit-only dot
components of the two strings as Python lists (strict lexicographic, no
padding, non-digit components dropped); the `latest != installed and
latest is not None` rule only applies when an argument is Python `None`. -/
theorem c4_fallback_digit_compare (i l : List Char)
    (h : pkg_version_parse l = none ∨ pkg_version_parse i = none) :
    is_version_newer (some i) (some l) =
      (pyListCmp (digit_parts l) (digit_parts i) == Ordering.gt) := by
  cases hl : pkg_version_parse l with
  | none => simp [is_version_newer, hl]
  | some lv =>
    cases hi : pkg_version_parse i with
    | none => simp [is_version_newer, hl, hi]
    | some iv =>
      rcases h with h | h
      · rw [hl] at h; exact absurd h (by simp)
      · rw [hi] at h; exact absurd h (by simp)

/-- Witness for C4's amended claim: `"abc"` vs `"1.2.beta"`; only the
numeric components `[1, 2]` survive the filter and win. -/
theorem c4_fallback_digit_compare_witness :
    (pkg_version_parse (str "1.2.beta") = none
      ∨ pkg_version_parse (str "abc") = none)
    ∧ is_version_newer (some (str "abc")) (some (str "1.2.beta")) =
        (pyListCmp (digit_parts (str "1.2.beta")) (digit_parts (str "abc"))
          == Ordering.gt) :=
  ⟨Or.inl (by decide),
   c4_fallback_digit_compare (str "abc") (str "1.2.beta") (Or.inl (by decide))⟩

/-! ### Claim C2 -/

/-- Counterexample to C2: `unzip_and_merge` stages nothing.  Merging an
archive whose first member replaces `d/a` and whose second member is
corrupt aborts mid-extraction with `d/a` already overwritten, so the
destination is not left as it was before the call. -/
theorem c2_no_staging_counterexample :
    (unzip_and_merge [str "d"]
        [ZipEntry.file [str "a"] (some [9]), ZipEntry.file [str "b"] none]
        (fun q => if q = [str "d", str "a"] then some [1, 2] else none)).1 = false
    ∧ (unzip_and_merge [str "d"]
        [ZipEntry.file [str "a"] (some [9]), ZipEntry.file [str "b"] none]
        (fun q => if q = [str "d", str "a"] then some [1, 2] else none)).2
        [str "d", str "a"] = some [9]
    ∧ (fun q => if q = [str "d", str "a"] then some ([1, 2] : List Nat) else none)
        [str "d", str "a"] = some [1, 2]
    ∧ some ([9] : List Nat) ≠ some [1, 2] := by
  decide

/-- Claim C2 as amended: `unzip_and_merge` extracts each member directly
into the destination (truncating overwrite in place, no staging directory),
so a mid-extraction failure can leave earlier members already replaced; what
does hold is that paths not targeted by any archive member are never
modified, whether extraction completes or aborts. -/
theorem c2_merge_untouched_paths (dest : List (List Char))
    (entries : List ZipEntry) (fs : ZFS) (p : List (List Char))
    (hp : p ∉ zip_targets dest entries) :
    (unzip_and_merge dest entries fs).2 p = fs p := by
  induction entries generalizing fs with
  | nil => rfl
  | cons e rest ih =>
    cases e with
    | dir parts =>
      have hp' : p ∉ zip_targets dest rest := hp
      exact ih fs hp'
    | file parts content =>
      have hne : p ≠ dest ++ stripResources parts := by
        intro hEq
        exact hp (by simp [zip_targets, hEq])
      have hrest : p ∉ zip_targets dest rest := by
        intro hm
        exact hp (by simp [zip_targets, hm])
      cases content with
      | none => simp [unzip_and_merge, writeFS, hne]
      | some c =>
        show (unzip_and_merge dest rest
          (writeFS fs (dest ++ stripResources parts) (some c))).2 p = fs p
        rw [ih _ hrest]
        simp [writeFS, hne]

/-- Witness for C2's amended claim: a one-member archive leaves the
unrelated path `d/b` untouched. -/
theorem c2_merge_untouched_paths_witness :
    [str "d", str "b"] ∉
      zip_targets [str "d"] [ZipEntry.file [str "a"] (some [9])]
    ∧ (unzip_and_merge [str "d"] [ZipEntry.file [str "a"] (some [9])]
        (fun q => if q = [str "d", str "b"] then some [3] else none)).2
        [str "d", str "b"] =
      (fun q => if q = [str "d", str "b"] then some ([3] : List Nat) else none)
        [str "d", str "b"] :=
  ⟨by decide,
   c2_merge_untouched_paths [str "d"] [ZipEntry.file [str "a"] (some [9])]
     (fun q => if q = [str "d", str "b"] then some [3] else none)
     [str "d", str "b"] (by decide)⟩

/-! ### Claim C6 -/

/-- Counterexample to C6: `InstallerUpdater.run` (and `Updater.start_update`
in the 1.2 updater) stream the main executable download directly onto the
installed executable path `modmanager.exe`. -/
theorem c6_download_over_live_target_counterexample :
    MODMANAGER_EXE ∈ run_download_dests ⟨false, true⟩
    ∧ MODMANAGER_EXE ∈ start_update_download_dests ⟨false, true⟩ := by
  decide

/-- Claim C6 as amended: the updater binary and the resources archive are
downloaded to paths distinct from their live targets (`update_new.exe` and
the `resources.zip` staging file — `update.exe` itself is never a download
destination), but both update workflows download `modmanager.exe` directly
onto the installed executable path. -/
theorem c6_download_dests_amended (env env' : InstallerRunEnv) :
    MODMANAGER_EXE ∈ run_download_dests env
    ∧ str "update.exe" ∉ run_download_dests env
    ∧ str "resources" ∉ run_download_dests env
    ∧ MODMANAGER_EXE ∈ start_update_download_dests env'
    ∧ str "update.exe" ∉ start_update_download_dests env' := by
  rcases env with ⟨u, m⟩
  rcases env' with ⟨u', m'⟩
  cases u <;> cases m <;> cases u' <;> cases m' <;> decide

/-! ### Downloader lemmas -/

theorem dl_loop_cb_irrel (cb cb' : Nat → Bool) :
    ∀ (chunks : List (Option (List Nat))) (i j : Nat) (acc : List Nat),
      dl_loop cb chunks i acc = dl_loop cb' chunks j acc := by
  intro chunks
  induction chunks with
  | nil => intro i j acc; rfl
  | cons o rest ih =>
    intro i j acc
    cases o with
    | none => rfl
    | some c => exact ih (i + 1) (j + 1) (acc ++ c)

theorem dl_loop_flag (cb : Nat → Bool) :
    ∀ (chunks : List (Option (List Nat))) (i : Nat) (acc : List Nat),
      (dl_loop cb chunks i acc).1 = chunks.all Option.isSome := by
  intro chunks
  induction chunks with
  | nil => intro i acc; rfl
  | cons o rest ih =>
    intro i acc
    cases o with
    | none => rfl
    | some c => simpa [dl_loop] using ih (i + 1) (acc ++ c)

theorem dl_loop_bytes (cb : Nat → Bool) :
    ∀ (chunks : List (Option (List Nat))) (i : Nat) (acc : List Nat),
      (dl_loop cb chunks i acc).1 = true →
      (dl_loop cb chunks i acc).2 = acc ++ chunksBytes chunks := by
  intro chunks
  induction chunks with
  | nil => intro i acc _; simp [dl_loop, chunksBytes]
  | cons o rest ih =>
    intro i acc h
    cases o with
    | none => simp [dl_loop] at h
    | some c =>
      have h' := ih (i + 1) (acc ++ c) (by simpa [dl_loop] using h)
      simpa [dl_loop, chunksBytes, List.append_assoc] using h'

/-! ### Claim C9 -/

/-- Claim C9: `download_url_to_path` never propagates an exception (every
`except` branch is a value branch and the function is total); it returns
`True` exactly when `urlopen` succeeded, the destination could be created,
and the whole stream was read and written without error; a progress
callback that raises is swallowed without changing either the return value
or the bytes written. -/
theorem c9_download_never_raises (env : DlEnv) (cb cb' : Nat → Bool) :
    download_url_to_path env cb = download_url_to_path env cb'
    ∧ ((download_url_to_path env cb).1 = true ↔
        env.urlopen_ok = true ∧ env.fs_ok = true
          ∧ env.chunks.all Option.isSome = true) := by
  constructor
  · unfold download_url_to_path
    cases h : (env.urlopen_ok && env.fs_ok) with
    | false => rfl
    | true =>
      simp only [if_true]
      rw [dl_loop_cb_irrel cb cb' env.chunks 0 0 []]
  · unfold download_url_to_path
    cases h : (env.urlopen_ok && env.fs_ok) with
    | false =>
      obtain h' | h' := Bool.and_eq_false_iff.mp h <;>
        simp [h', dl_loop_flag cb env.chunks 0 []]
    | true =>
      obtain ⟨hu, hf⟩ := Bool.and_eq_true_iff.mp h
      simp [hu, hf, dl_loop_flag cb env.chunks 0 []]

/-! ### Claim C7 -/

/-- Counterexample to C7: a response that carries `Content-Length: 5` but
whose stream ends immediately still makes `download_url_to_path` return
`True` with a 0-byte destination file — the code never compares the bytes
received against the header, so a successful return does not imply the file
has size N. -/
theorem c7_download_size_counterexample :
    (download_url_to_path ⟨true, some (str "5"), [], true⟩ (fun _ => false)).1
      = true
    ∧ parseTotal (some (str "5")) = some 5
    ∧ (download_url_to_path ⟨true, some (str "5"), [], true⟩ (fun _ => false)).2
      = some []
    ∧ ([] : List Nat).length ≠ 5 := by
  decide

/-- Claim C7 as amended: on a successful return the destination file holds
exactly the bytes the stream delivered (`chunksBytes`); its size equals the
`content-length` value N only in the case the stream in fact delivered N
bytes — no check enforces this, a prematurely closed stream yields a
successful return with a shorter file. -/
theorem c7_download_size_amended (env : DlEnv) (cb : Nat → Bool)
    (h : (download_url_to_path env cb).1 = true) :
    (download_url_to_path env cb).2 = some (chunksBytes env.chunks)
    ∧ ∀ n, parseTotal env.content_length = some n →
        (chunksBytes env.chunks).length = n →
        ∃ bytes, (download_url_to_path env cb).2 = some bytes
          ∧ bytes.length = n := by
  have hok : (env.urlopen_ok && env.fs_ok) = true := by
    by_contra hne
    rw [download_url_to_path] at h
    simp only [Bool.not_eq_true] at hne
    rw [hne] at h
    exact absurd h (by simp)
  have hflag : (dl_loop cb env.chunks 0 []).1 = true := by
    rw [download_url_to_path, hok] at h
    simpa using h
  have hbytes : (dl_loop cb env.chunks 0 []).2 = chunksBytes env.chunks := by
    simpa using dl_loop_bytes cb env.chunks 0 [] hflag
  have hmain : (download_url_to_path env cb).2 = some (chunksBytes env.chunks) := by
    rw [download_url_to_path, hok]
    simpa using hbytes
  refine ⟨hmain, ?_⟩
  intro n hn hlen
  exact ⟨chunksBytes env.chunks, hmain, hlen⟩

/-- Witness for C7's amended claim: a 3-byte stream with a matching header
and a callback that raises on every call. -/
theorem c7_download_size_amended_witness :
    (download_url_to_path ⟨true, some (str "3"), [some [1, 2, 3]], true⟩
        (fun _ => true)).1 = true
    ∧ (download_url_to_path ⟨true, some (str "3"), [some [1, 2, 3]], true⟩
        (fun _ => true)).2 = some (chunksBytes [some [1, 2, 3]]) :=
  ⟨by decide, (c7_download_size_amended _ _ (by decide)).1⟩

/-! ### Version-comparison lemmas (claim C3) -/

theorem dtz_cons_ne (x : Nat) (xs : List Nat) (hx : x ≠ 0) :
    dropTrailZeros (x :: xs) = x :: dropTrailZeros xs := by
  have hx' : (x == 0) = false := by simpa using hx
  simp only [dropTrailZeros]
  cases h : dropTrailZeros xs with
  | nil => simp [hx']
  | cons a l => rfl

theorem dtz_zero_nil (xs : List Nat) (h : dropTrailZeros xs = []) :
    dropTrailZeros (0 :: xs) = [] := by
  simp [dropTrailZeros, h]

theorem dtz_zero_cons (xs : List Nat) (a : Nat) (l : List Nat)
    (h : dropTrailZeros xs = a :: l) :
    dropTrailZeros (0 :: xs) = 0 :: a :: l := by
  simp [dropTrailZeros, h]

theorem compare_zero_zero : compare 0 0 = Ordering.eq := by decide

theorem pyListCmp_dtz (a b : List Nat) :
    pyListCmp (dropTrailZeros a) (dropTrailZeros b) = cmpPad a b := by
  induction a, b using cmpPad.induct with
  | case1 => simp [dropTrailZeros, pyListCmp, cmpPad]
  | case2 y ys ih =>
    simp only [cmpPad]
    by_cases hy : y = 0
    · subst hy
      rw [compare_zero_zero]
      rw [← ih]
      cases h : dropTrailZeros ys with
      | nil => rw [dtz_zero_nil ys h]; rfl
      | cons a l => rw [dtz_zero_cons ys a l h]; rfl
    · have e : compare 0 y = Ordering.lt :=
        Nat.compare_eq_lt.mpr (Nat.pos_of_ne_zero hy)
      rw [e, dtz_cons_ne y ys hy]
      rfl
  | case3 x xs ih =>
    simp only [cmpPad]
    by_cases hx : x = 0
    · subst hx
      rw [compare_zero_zero]
      rw [← ih]
      cases h : dropTrailZeros xs with
      | nil => rw [dtz_zero_nil xs h]; rfl
      | cons a l => rw [dtz_zero_cons xs a l h]; rfl
    · have e : compare x 0 = Ordering.gt :=
        Nat.compare_eq_gt.mpr (Nat.pos_of_ne_zero hx)
      rw [e, dtz_cons_ne x xs hx]
      rfl
  | case4 x xs y ys ih =>
    simp only [cmpPad]
    by_cases hx : x = 0 <;> by_cases hy : y = 0
    · subst hx; subst hy
      rw [compare_zero_zero, ← ih]
      cases h1 : dropTrailZeros xs with
      | nil =>
        cases h2 : dropTrailZeros ys with
        | nil => rw [dtz_zero_nil xs h1, dtz_zero_nil ys h2]; rfl
        | cons b m => rw [dtz_zero_nil xs h1, dtz_zero_cons ys b m h2]; rfl
      | cons a l =>
        cases h2 : dropTrailZeros ys with
        | nil => rw [dtz_zero_cons xs a l h1, dtz_zero_nil ys h2]; rfl
        | cons b m => rw [dtz_zero_cons xs a l h1, dtz_zero_cons ys b m h2]; rfl
    · subst hx
      have e : compare 0 y = Ordering.lt :=
        Nat.compare_eq_lt.mpr (Nat.pos_of_ne_zero hy)
      rw [e, dtz_cons_ne y ys hy]
      cases h1 : dropTrailZeros xs with
      | nil => rw [dtz_zero_nil xs h1]; rfl
      | cons a l =>
        rw [dtz_zero_cons xs a l h1]
        simp only [pyListCmp, e]
        rfl
    · subst hy
      have e : compare x 0 = Ordering.gt :=
        Nat.compare_eq_gt.mpr (Nat.pos_of_ne_zero hx)
      rw [e, dtz_cons_ne x xs hx]
      cases h2 : dropTrailZeros ys with
      | nil => rw [dtz_zero_nil ys h2]; rfl
      | cons b m =>
        rw [dtz_zero_cons ys b m h2]
        simp only [pyListCmp, e]
        rfl
    · rw [dtz_cons_ne x xs hx, dtz_cons_ne y ys hy]
      simp [pyListCmp, ih]

theorem padTo_succ_nil (m : Nat) : padTo (m + 1) [] = 0 :: padTo m [] := by
  simp [padTo, List.replicate_succ]

theorem padTo_succ_cons (m x : Nat) (xs : List Nat) :
    padTo (m + 1) (x :: xs) = x :: padTo m xs := by
  simp [padTo, Nat.succ_sub_succ]

theorem pyListCmp_padTo :
    ∀ (m : Nat) (a b : List Nat), a.length ≤ m → b.length ≤ m →
      pyListCmp (padTo m a) (padTo m b) = cmpPad a b := by
  intro m
  induction m with
  | zero =>
    intro a b ha hb
    have ha' : a = [] := List.eq_nil_of_length_eq_zero (Nat.le_zero.mp ha)
    have hb' : b = [] := List.eq_nil_of_length_eq_zero (Nat.le_zero.mp hb)
    subst ha'; subst hb'
    simp [padTo, cmpPad, pyListCmp]
  | succ m ih =>
    intro a b ha hb
    cases a with
    | nil =>
      cases b with
      | nil =>
        rw [padTo_succ_nil, pyListCmp, compare_zero_zero,
          ih [] [] (Nat.zero_le m) (Nat.zero_le m)]
        simp [cmpPad]
        rfl
      | cons y ys =>
        rw [padTo_succ_nil, padTo_succ_cons, pyListCmp,
          ih [] ys (Nat.zero_le m) (Nat.le_of_succ_le_succ hb)]
        simp [cmpPad]
    | cons x xs =>
      cases b with
      | nil =>
        rw [padTo_succ_cons, padTo_succ_nil, pyListCmp,
          ih xs [] (Nat.le_of_succ_le_succ ha) (Nat.zero_le m)]
        simp [cmpPad]
      | cons y ys =>
        rw [padTo_succ_cons, padTo_succ_cons, pyListCmp,
          ih xs ys (Nat.le_of_succ_le_succ ha) (Nat.le_of_succ_le_succ hb)]
        simp [cmpPad]

/-! ### Claim C3 -/

/-- Claim C3: on version strings that parse as dot-separated numeric
components, `is_version_newer` coincides with the right-zero-padded
lexicographic comparison (`specIsNewer`), and the three concrete examples
hold: `1.0.10` is newer than `1.0.9`, not vice versa, and `1.2.0` is not
newer than `1.2`. -/
theorem c3_version_compare_padded :
    (∀ (i l : List Char) (iv lv : List Nat),
        pkg_version_parse i = some iv → pkg_version_parse l = some lv →
        is_version_newer (some i) (some l) = specIsNewer iv lv)
    ∧ is_version_newer (some (str "1.0.9")) (some (str "1.0.10")) = true
    ∧ is_version_newer (some (str "1.0.10")) (some (str "1.0.9")) = false
    ∧ is_version_newer (some (str "1.2")) (some (str "1.2.0")) = false := by
  refine ⟨?_, by decide, by decide, by decide⟩
  intro i l iv lv hi hl
  have h1 : is_version_newer (some i) (some l) = pkgLt iv lv := by
    simp [is_version_newer, hi, hl]
  rw [h1]
  simp only [pkgLt, specIsNewer]
  rw [pyListCmp_dtz iv lv,
    ← pyListCmp_padTo (max iv.length lv.length) iv lv
      (le_max_left _ _) (le_max_right _ _)]

/-- Witness for C3's general clause at `1.0.9` vs `1.0.10`. -/
theorem c3_version_compare_padded_witness :
    pkg_version_parse (str "1.0.9") = some [1, 0, 9]
    ∧ pkg_version_parse (str "1.0.10") = some [1, 0, 10]
    ∧ is_version_newer (some (str "1.0.9")) (some (str "1.0.10")) =
        specIsNewer [1, 0, 9] [1, 0, 10] :=
  ⟨by decide, by decide,
   c3_version_compare_padded.1 (str "1.0.9") (str "1.0.10") [1, 0, 9]
     [1, 0, 10] (by decide) (by decide)⟩

/-! ### Claim C1 -/

theorem watcher_loop_after_release (lockedAt : Nat → Bool) :
    ∀ (k i fuel : Nat) (s : RepState), lockedAt (i + k) = false → k < fuel →
      watcher_loop lockedAt i fuel s = some (watcher_finish s) := by
  intro k
  induction k with
  | zero =>
    intro i fuel s hrel hfuel
    cases fuel with
    | zero => exact absurd hfuel (by omega)
    | succ f =>
      have h0 : lockedAt i = false := by simpa using hrel
      simp [watcher_loop, h0]
  | succ k ih =>
    intro i fuel s hrel hfuel
    cases fuel with
    | zero => exact absurd hfuel (by omega)
    | succ f =>
      cases hI : lockedAt i with
      | false => simp [watcher_loop, hI]
      | true =>
        have hrel' : lockedAt (i + 1 + k) = false := by
          have : i + 1 + k = i + (k + 1) := by omega
          rw [this]; exact hrel
        have hstep := ih (i + 1) f s hrel' (by omega)
        simp [watcher_loop, hI, hstep]

/-- Claim C1: for a replacement job whose source file holds bytes `c`:
when the destination is not locked, `replace` reports `Committed` and the
destination afterwards holds exactly `c` (the source's pre-call content);
when the destination is locked, `replace` reports `Deferred` and — once the
lock is released at some attempt `k` within the watcher's modelled `fuel` —
the detached watcher terminates in a state where the destination holds `c`
and the `dest + ".new"` staging file no longer exists. -/
theorem c1_replacement_engine (s : RepState) (c : List Nat)
    (hsrc : s.src = some c) (lockedAt : Nat → Bool) (k fuel : Nat)
    (hrel : lockedAt k = false) (hfuel : k < fuel) :
    ((ReplacementEngine_replace false s).1 = ReplaceResult.committed
      ∧ (ReplacementEngine_replace false s).2.dest = some c)
    ∧ ((ReplacementEngine_replace true s).1 = ReplaceResult.deferred
      ∧ ∃ s', watcher_loop lockedAt 0 fuel (ReplacementEngine_replace true s).2
            = some s'
          ∧ s'.dest = some c ∧ s'.newFile = none) := by
  constructor
  · constructor
    · simp [ReplacementEngine_replace, atomic_replace, hsrc]
    · simp [ReplacementEngine_replace, atomic_replace, hsrc]
  · have hdef : ReplacementEngine_replace true s =
        (ReplaceResult.deferred, { s with newFile := some c }) := by
      simp [ReplacementEngine_replace, schedule_deferred, hsrc]
    rw [hdef]
    refine ⟨rfl, ?_⟩
    have hrel0 : lockedAt (0 + k) = false := by simpa using hrel
    have hrun := watcher_loop_after_release lockedAt k 0 fuel
      { s with newFile := some c } hrel0 hfuel
    exact ⟨watcher_finish { s with newFile := some c }, hrun, rfl, rfl⟩

/-- Witness for C1: one-byte files, a destination that is locked at attempt
0 and released at attempt 1, two units of fuel. -/
theorem c1_replacement_engine_witness :
    ((ReplacementEngine_replace false ⟨some [7], some [1], none⟩).1
        = ReplaceResult.committed
      ∧ (ReplacementEngine_replace false ⟨some [7], some [1], none⟩).2.dest
        = some [7])
    ∧ ((ReplacementEngine_replace true ⟨some [7], some [1], none⟩).1
        = ReplaceResult.deferred
      ∧ ∃ s', watcher_loop (fun i => i == 0) 0 2
            (ReplacementEngine_replace true ⟨some [7], some [1], none⟩).2
            = some s'
          ∧ s'.dest = some [7] ∧ s'.newFile = none) :=
  c1_replacement_engine ⟨some [7], some [1], none⟩ [7] rfl
    (fun i => i == 0) 1 2 (by decide) (by decide)
